import Mathlib

/-!
Verification of the streaming-pipeline frontend (src/frontend/src/App.jsx).

The file shallowly embeds the component's operations:
* the capture encoder (`onaudioprocess`, lines 153-182): clamp, PCM16 scale,
  little-endian byte split, base64 (`btoa`);
* the playback decoder (`playPcmChunk`, lines 215-238): base64 (`atob`),
  little-endian int16 read, divide by 32768;
* the connection lifecycle (`connectWebSocket`, `disconnectWebSocket`,
  `onclose`, `startAudioCapture`, `stopAudioCapture`);
* the inbound message router (`onmessage`, lines 44-91) and the whisper
  (text annotation) 10-second expiry timers.

Audio samples are modelled as rationals: every arithmetic step of the source
(clamp to [-1,1], multiply by 32767/32768, truncate toward zero, divide by
32768) is exact on the inputs considered, and the concrete inputs used in
counterexamples are chosen to be Float32-representable with exactly
representable intermediate products, so the rational model agrees with the
JavaScript float evaluation there.
-/

/-! ## PCM16 encoding (onaudioprocess, lines 158-164) -/

/-- `Math.max(-1, Math.min(1, x))` — line 162. -/
def clamp1 (x : ℚ) : ℚ := max (-1) (min 1 x)

/-- JavaScript number-to-integer conversion truncates toward zero. -/
def ratTrunc (x : ℚ) : ℤ := if 0 ≤ x then ⌊x⌋ else ⌈x⌉

/-- Storing into an `Int16Array` wraps the truncated value into
[-32768, 32767] (ECMAScript ToInt16). -/
def toInt16 (n : ℤ) : ℤ := (n + 32768) % 65536 - 32768

/-- One sample through line 162-163:
`const s = Math.max(-1, Math.min(1, inputData[i])); pcmData[i] = s < 0 ? s * 0x8000 : s * 0x7FFF;`. -/
def encodeSample (x : ℚ) : ℤ :=
  let s := clamp1 x
  toInt16 (if s < 0 then ratTrunc (s * 32768) else ratTrunc (s * 32767))

/-- `new Uint8Array(pcmData.buffer)` — a stored int16 becomes two bytes,
little-endian (line 166-168). -/
def int16ToBytes (v : ℤ) : List ℕ :=
  let u := (v % 65536).toNat
  [u % 256, u / 256]

/-- The byte stream of a whole capture block. -/
def encodePcmBytes : List ℚ → List ℕ
  | [] => []
  | s :: rest => int16ToBytes (encodeSample s) ++ encodePcmBytes rest

/-! ## Base64 (`btoa` on line 166, `atob` on line 217) -/

def base64Chars : List Char :=
  "ABCDEFGHIJKLMNOPQRSTUVWXYZabcdefghijklmnopqrstuvwxyz0123456789+/".toList

def b64Char (n : ℕ) : Char := base64Chars.getD n '?'

def b64IndexAux (c : Char) : List Char → ℕ → Option ℕ
  | [], _ => none
  | d :: rest, i => if d = c then some i else b64IndexAux c rest (i + 1)

/-- Position of `c` in the base64 alphabet, `none` for a character `atob`
rejects. -/
def b64Index (c : Char) : Option ℕ := b64IndexAux c base64Chars 0

/-- `btoa`: bytes to base64 characters, final group padded with `=`. -/
def encodeBase64Aux : List ℕ → List Char
  | [] => []
  | [a] => [b64Char (a / 4), b64Char (a % 4 * 16), '=', '=']
  | [a, b] => [b64Char (a / 4), b64Char (a % 4 * 16 + b / 16), b64Char (b % 16 * 4), '=']
  | a :: b :: c :: rest =>
    let n := a * 65536 + b * 256 + c
    b64Char (n / 262144) :: b64Char (n / 4096 % 64) :: b64Char (n / 64 % 64) ::
      b64Char (n % 64) :: encodeBase64Aux rest

def encodeBase64 (bytes : List ℕ) : String := ⟨encodeBase64Aux bytes⟩

/-- A full 4-character group: 3 bytes. -/
def decodeGroup4 (c1 c2 c3 c4 : Char) : Option (List ℕ) :=
  match b64Index c1, b64Index c2, b64Index c3, b64Index c4 with
  | some n1, some n2, some n3, some n4 =>
    some [n1 * 4 + n2 / 16, n2 % 16 * 16 + n3 / 4, n3 % 4 * 64 + n4]
  | _, _, _, _ => none

/-- A final 2-character group (or a `xx==` padded one): 1 byte. -/
def decodeGroup2 (c1 c2 : Char) : Option (List ℕ) :=
  match b64Index c1, b64Index c2 with
  | some n1, some n2 => some [n1 * 4 + n2 / 16]
  | _, _ => none

/-- A final 3-character group (or a `xxx=` padded one): 2 bytes. -/
def decodeGroup3 (c1 c2 c3 : Char) : Option (List ℕ) :=
  match b64Index c1, b64Index c2, b64Index c3 with
  | some n1, some n2, some n3 => some [n1 * 4 + n2 / 16, n2 % 16 * 16 + n3 / 4]
  | _, _, _ => none

/-- The last 4 characters of the input: `=` padding is honoured here and only
here, as in the forgiving-base64 algorithm behind `atob`. -/
def final4 (c1 c2 c3 c4 : Char) : Option (List ℕ) :=
  if c3 = '=' then (if c4 = '=' then decodeGroup2 c1 c2 else none)
  else if c4 = '=' then decodeGroup3 c1 c2 c3
  else decodeGroup4 c1 c2 c3 c4

/-- `atob` (modulo whitespace stripping, which no payload here contains):
groups of 4, a last group of 2 or 3 characters is allowed unpadded, a
remainder of 1 character or a foreign character is an error, reported as
`none` (the caller catches the exception). -/
def decodeBase64Aux : List Char → Option (List ℕ)
  | [] => some []
  | [c1, c2] => decodeGroup2 c1 c2
  | [c1, c2, c3] => decodeGroup3 c1 c2 c3
  | c1 :: c2 :: c3 :: c4 :: rest =>
    if rest.isEmpty then final4 c1 c2 c3 c4
    else
      match decodeGroup4 c1 c2 c3 c4, decodeBase64Aux rest with
      | some g, some tl => some (g ++ tl)
      | _, _ => none
  | _ => none

def decodeBase64 (s : String) : Option (List ℕ) := decodeBase64Aux s.data

/-! ## Playback decoding (playPcmChunk, lines 215-238) -/

/-- Lines 220-226: `float32Data.length = byteLength / 2` (an odd trailing byte
is dropped), each sample read as a little-endian int16 and divided by 32768. -/
def bytesToSamples : List ℕ → List ℚ
  | b0 :: b1 :: rest => ((toInt16 (b1 * 256 + b0) : ℚ) / 32768) :: bytesToSamples rest
  | _ => []

/-- `playPcmChunk(base64Audio)`: decode and hand the samples to a fresh output
context. A decode failure is caught by the surrounding `try` (line 235-237)
and surfaces as `none`; no session state is read or written either way. -/
def playPcmChunk (b64 : String) : Option (List ℚ) :=
  (decodeBase64 b64).map bytesToSamples

/-- The whole capture side of one block (lines 158-168): clamp, scale,
little-endian bytes, base64. -/
def encodeFrame (samples : List ℚ) : String := encodeBase64 (encodePcmBytes samples)

/-! ## Session state (component state and refs, lines 6-16) -/

structure Whisper where
  id : ℕ
  text : String
  timestamp : ℕ
  deriving DecidableEq

structure DebugInfo where
  status : String
  lastMessage : String
  deriving DecidableEq

inductive ReadyState where
  | connecting
  | opened
  | closing
  | closed
  deriving DecidableEq

/-- The component's state and refs. `wsRef = none` models
`wsRef.current === null`; the three capture booleans model whether
`processorRef.current`, `mediaStreamRef.current`, `audioContextRef.current`
are non-null. -/
structure AppState where
  isNegotiating : Bool
  audioLevel : ℚ
  isConnected : Bool
  whispers : List Whisper
  debugInfo : DebugInfo
  wsRef : Option ReadyState
  captureProcessor : Bool
  captureStream : Bool
  captureContext : Bool
  whisperIdCounter : ℕ
  deriving DecidableEq

/-- The initial `useState` values (lines 6-16). -/
def initialState : AppState where
  isNegotiating := false
  audioLevel := 0
  isConnected := false
  whispers := []
  debugInfo := ⟨"Disconnected", ""⟩
  wsRef := none
  captureProcessor := false
  captureStream := false
  captureContext := false
  whisperIdCounter := 0

/-- The capture pipeline is fully released. -/
def captureStopped (st : AppState) : Prop :=
  st.captureProcessor = false ∧ st.captureStream = false ∧ st.captureContext = false

/-- Externally visible resource actions of the teardown paths. -/
inductive Effect where
  | wsClose
  | disconnectProcessor
  | stopTracks
  | closeAudioContext
  deriving DecidableEq

/-! ## Lifecycle operations -/

/-- `stopAudioCapture` (lines 196-213): each of the three refs is released
and nulled only if it is set. -/
def stopAudioCapture (st : AppState) : AppState × List Effect :=
  let (st1, e1) :=
    if st.captureProcessor then
      ({ st with captureProcessor := false }, [Effect.disconnectProcessor])
    else (st, [])
  let (st2, e2) :=
    if st1.captureStream then
      ({ st1 with captureStream := false }, [Effect.stopTracks])
    else (st1, [])
  let (st3, e3) :=
    if st2.captureContext then
      ({ st2 with captureContext := false }, [Effect.closeAudioContext])
    else (st2, [])
  (st3, e1 ++ e2 ++ e3)

/-- `disconnectWebSocket` (lines 106-117): the stop-intent teardown. -/
def disconnectWebSocket (st : AppState) : AppState × List Effect :=
  let (st1, e1) :=
    if st.wsRef.isSome then ({ st with wsRef := none }, [Effect.wsClose]) else (st, [])
  let (st2, e2) := stopAudioCapture st1
  ({ st2 with
      isConnected := false
      audioLevel := 0
      whispers := []
      debugInfo := ⟨"Disconnected", ""⟩ },
   e1 ++ e2)

/-- `connectWebSocket` (lines 27-32): status banner, whisper list cleared,
fresh socket. The whisper id counter and the volume level are untouched. -/
def connectWebSocket (st : AppState) : AppState :=
  { st with
      debugInfo := { st.debugInfo with status := "Connecting..." }
      whispers := []
      wsRef := some ReadyState.connecting }

/-- `wsRef.current.onclose` (lines 98-103): status banner, `isConnected`
false, `stopAudioCapture()`. `audioLevel` and `whispers` are NOT touched. -/
def onCloseEvent (code : ℕ) (st : AppState) : AppState × List Effect :=
  stopAudioCapture
    { st with
        debugInfo := { st.debugInfo with
          status := "Disconnected (" ++ toString code ++ ")" }
        isConnected := false }

/-- The platform capabilities `startAudioCapture` depends on. -/
structure CaptureEnv where
  hasGetUserMedia : Bool
  micGranted : Bool
  deriving DecidableEq

/-- Actions `startAudioCapture` hands to `setTimeout`. -/
inductive Scheduled where
  | stopIntent
  | retryCapture
  deriving DecidableEq

/-- `startAudioCapture` (lines 119-194). Failure (no capture API, line
123-125, or refused microphone access, line 127) lands in the `catch`
(lines 188-193): the error message is surfaced in the debug panel,
`isConnected` is set false and `setIsNegotiating(false)` — the stop intent —
is scheduled once after a fixed 2000 ms delay. Nothing is ever rescheduled
to retry capture. -/
def startAudioCapture (env : CaptureEnv) (st : AppState) :
    AppState × List (ℕ × Scheduled) :=
  if env.hasGetUserMedia = false then
    ({ st with
        debugInfo := { st.debugInfo with
          lastMessage := "Mic Error: getUserMedia is not supported in this browser" }
        isConnected := false },
     [(2000, Scheduled.stopIntent)])
  else if env.micGranted = false then
    ({ st with
        debugInfo := { st.debugInfo with
          lastMessage := "Mic Error: Permission denied" }
        isConnected := false },
     [(2000, Scheduled.stopIntent)])
  else
    ({ st with captureStream := true, captureContext := true, captureProcessor := true },
     [])

/-! ## The message router (onmessage, lines 44-91) -/

/-- The fields of a parsed inbound message the handler reads. -/
structure InboundMsg where
  vol : Option ℚ
  type : Option String
  text : Option String
  audio : Option String
  deriving DecidableEq

/-- JavaScript truthiness of an optional string field: present and
non-empty. -/
def truthy : Option String → Bool
  | some s => s != ""
  | none => false

/-- Line 45: the debug preview of the raw payload. -/
def msgPreview (raw : String) : String :=
  if raw.length > 50 then (raw.take 50).push '.' ++ ".." else raw

/-- What one `onmessage` invocation did: the new state, the base64 payloads
handed to `playPcmChunk` in order, the whispers appended, and the expiry
timers registered as (delay ms, whisper id). -/
structure MsgResult where
  state : AppState
  played : List String
  created : List Whisper
  timers : List (ℕ × ℕ)
  deriving DecidableEq

/-- `wsRef.current.onmessage` (lines 44-91). `parsed = none` models a
`JSON.parse` failure, which jumps to the `catch` (line 88-90): only the
debug preview set on line 46 has already happened. The four dispatch
branches are independent `if`s over the same parsed message. -/
def onMessage (raw : String) (parsed : Option InboundMsg) (now : ℕ)
    (st : AppState) : MsgResult :=
  let st0 := { st with debugInfo := { st.debugInfo with lastMessage := msgPreview raw } }
  match parsed with
  | none => ⟨st0, [], [], []⟩
  | some data =>
    let st1 := match data.vol with
      | some v => { st0 with audioLevel := v }
      | none => st0
    let newWhisper : Whisper := ⟨st1.whisperIdCounter, data.text.getD "", now⟩
    let st2 :=
      if data.type = some "whisper" ∧ truthy data.text = true then
        { st1 with
            whispers := st1.whispers ++ [newWhisper]
            whisperIdCounter := st1.whisperIdCounter + 1 }
      else st1
    let created :=
      if data.type = some "whisper" ∧ truthy data.text = true then [newWhisper] else []
    let timers :=
      if data.type = some "whisper" ∧ truthy data.text = true then [(10000, newWhisper.id)]
      else []
    let typedAudio :=
      if data.type = some "audio" ∧ truthy data.audio = true then [data.audio.getD ""] else []
    let legacyAudio :=
      if truthy data.audio = true ∧ truthy data.type = false then [data.audio.getD ""] else []
    ⟨st2, typedAudio ++ legacyAudio, created, timers⟩

/-- The outbound wire unit (lines 171-178): one mime-tagged base64 frame. -/
structure Envelope where
  mimeType : String
  data : String
  deriving DecidableEq

/-- `onaudioprocess` (lines 153-182): if the socket ref is null or not OPEN
the block is dropped (early return, lines 154-156) — nothing is stored
anywhere; otherwise one envelope is sent. The session state is returned
unchanged in both cases: the handler mutates nothing. -/
def onAudioProcess (st : AppState) (samples : List ℚ) : AppState × Option Envelope :=
  if st.wsRef = some ReadyState.opened then
    (st, some ⟨"audio/pcm", encodeFrame samples⟩)
  else
    (st, none)

/-! ## Whisper expiry timers (lines 66-71) -/

/-- The two operations the whisper list undergoes: line 66 appends, the
line 69-71 timer callback filters one id out. -/
inductive WsEvent where
  | create (w : Whisper)
  | expire (i : ℕ)
  deriving DecidableEq

def stepWhispers : WsEvent → List Whisper → List Whisper
  | .create w, ws => ws ++ [w]
  | .expire i, ws => ws.filter (fun w => w.id != i)

/-- Apply timed events in list order starting from `ws`. -/
def runFrom (ws : List Whisper) (evs : List (ℕ × WsEvent)) : List Whisper :=
  evs.foldl (fun ws e => stepWhispers e.2 ws) ws

/-- The live whisper list at query time `t`: all events due by `t`,
in schedule order, applied to the empty list. -/
def liveList (evs : List (ℕ × WsEvent)) (t : ℕ) : List Whisper :=
  runFrom [] (evs.filter (fun e => e.1 ≤ t))

/-- Whether a whisper with id `i` is live. -/
def presentB (i : ℕ) (ws : List Whisper) : Bool := ws.any (fun w => w.id == i)

/-- Whether an event concerns id `i`. -/
def touches (i : ℕ) : WsEvent → Bool
  | .create w => w.id == i
  | .expire j => j == i

/-- Liveness of id `i` after a list of events, starting from liveness `b`. -/
def liveAfter (i : ℕ) (b : Bool) : List (ℕ × WsEvent) → Bool
  | [] => b
  | (_, .create w) :: rest => liveAfter i (b || (w.id == i)) rest
  | (_, .expire j) :: rest => liveAfter i (b && !(j == i)) rest

/-! ## Page-lifetime operation traces (for the id counter) -/

/-- The externally triggered operations that touch session state. -/
inductive PageOp where
  | startIntent
  | stopIntent
  | socketClose (code : ℕ)
  | message (raw : String) (parsed : Option InboundMsg) (now : ℕ)

/-- One operation: the next state and the ids of whispers created by it. -/
def stepPage (st : AppState) : PageOp → AppState × List ℕ
  | .startIntent => (connectWebSocket st, [])
  | .stopIntent => ((disconnectWebSocket st).1, [])
  | .socketClose c => ((onCloseEvent c st).1, [])
  | .message raw p now =>
    let r := onMessage raw p now st
    (r.state, r.created.map Whisper.id)

/-- A whole trace of operations; collects every created whisper id in
creation order. -/
def runPage (st : AppState) : List PageOp → AppState × List ℕ
  | [] => (st, [])
  | op :: ops =>
    let (st1, ids) := stepPage st op
    let (st2, rest) := runPage st1 ops
    (st2, ids ++ rest)

/-! ## Helper lemmas: base64 -/

theorem b64Index_b64Char_all : ∀ n, n < 64 → b64Index (b64Char n) = some n := by decide

theorem b64Index_b64Char {n : ℕ} (h : n < 64) : b64Index (b64Char n) = some n :=
  b64Index_b64Char_all n h

theorem b64Char_ne_pad (n : ℕ) : b64Char n ≠ '=' := by
  by_cases h : n < 64
  · exact (by decide : ∀ m, m < 64 → b64Char m ≠ '=') n h
  · unfold b64Char
    rw [List.getD_eq_default]
    · decide
    · simp only [not_lt] at h
      calc base64Chars.length = 64 := by decide
        _ ≤ n := h

theorem encodeBase64Aux_ne_nil : ∀ bytes : List ℕ, bytes ≠ [] → encodeBase64Aux bytes ≠ []
  | [], h => absurd rfl h
  | [_], _ => by simp [encodeBase64Aux]
  | [_, _], _ => by simp [encodeBase64Aux]
  | _ :: _ :: _ :: _, _ => by simp [encodeBase64Aux]

theorem decode_encode : ∀ bytes : List ℕ, (∀ b ∈ bytes, b < 256) →
    decodeBase64Aux (encodeBase64Aux bytes) = some bytes
  | [], _ => rfl
  | [a], h => by
    have ha : a < 256 := h a (by simp)
    show decodeBase64Aux [b64Char (a / 4), b64Char (a % 4 * 16), '=', '='] = some [a]
    rw [decodeBase64Aux]
    simp only [List.isEmpty_nil, if_true]
    rw [final4, if_pos rfl, if_pos rfl, decodeGroup2,
      b64Index_b64Char (show a / 4 < 64 by omega),
      b64Index_b64Char (show a % 4 * 16 < 64 by omega)]
    simp only [Option.some.injEq, List.cons.injEq, and_true]
    omega
  | [a, b], h => by
    have ha : a < 256 := h a (by simp)
    have hb : b < 256 := h b (by simp)
    show decodeBase64Aux
        [b64Char (a / 4), b64Char (a % 4 * 16 + b / 16), b64Char (b % 16 * 4), '='] =
      some [a, b]
    rw [decodeBase64Aux]
    simp only [List.isEmpty_nil, if_true]
    rw [final4, if_neg (b64Char_ne_pad _), if_pos rfl, decodeGroup3,
      b64Index_b64Char (show a / 4 < 64 by omega),
      b64Index_b64Char (show a % 4 * 16 + b / 16 < 64 by omega),
      b64Index_b64Char (show b % 16 * 4 < 64 by omega)]
    simp only [Option.some.injEq, List.cons.injEq, and_true]
    omega
  | a :: b :: c :: rest, h => by
    have ha : a < 256 := h a (by simp)
    have hb : b < 256 := h b (by simp)
    have hc : c < 256 := h c (by simp)
    have ih := decode_encode rest (fun x hx => h x (by simp [hx]))
    show decodeBase64Aux
        (b64Char ((a * 65536 + b * 256 + c) / 262144) ::
          b64Char ((a * 65536 + b * 256 + c) / 4096 % 64) ::
          b64Char ((a * 65536 + b * 256 + c) / 64 % 64) ::
          b64Char ((a * 65536 + b * 256 + c) % 64) :: encodeBase64Aux rest) =
      some (a :: b :: c :: rest)
    have hgroup : decodeGroup4 (b64Char ((a * 65536 + b * 256 + c) / 262144))
        (b64Char ((a * 65536 + b * 256 + c) / 4096 % 64))
        (b64Char ((a * 65536 + b * 256 + c) / 64 % 64))
        (b64Char ((a * 65536 + b * 256 + c) % 64)) = some [a, b, c] := by
      rw [decodeGroup4,
        b64Index_b64Char (show (a * 65536 + b * 256 + c) / 262144 < 64 by omega),
        b64Index_b64Char (show (a * 65536 + b * 256 + c) / 4096 % 64 < 64 by omega),
        b64Index_b64Char (show (a * 65536 + b * 256 + c) / 64 % 64 < 64 by omega),
        b64Index_b64Char (show (a * 65536 + b * 256 + c) % 64 < 64 by omega)]
      simp only [Option.some.injEq, List.cons.injEq, and_true]
      omega
    rcases Decidable.em (rest = []) with hr | hr
    · subst hr
      rw [show encodeBase64Aux [] = [] from rfl, decodeBase64Aux]
      simp only [List.isEmpty_nil, if_true]
      rw [final4, if_neg (b64Char_ne_pad _), if_neg (b64Char_ne_pad _), hgroup]
    · have hne : encodeBase64Aux rest ≠ [] := encodeBase64Aux_ne_nil rest hr
      rw [decodeBase64Aux]
      rw [if_neg (by simpa [List.isEmpty_iff] using hne)]
      rw [hgroup, ih]
      rfl

/-! ## Helper lemmas: PCM16 -/

theorem toInt16_mem (n : ℤ) : -32768 ≤ toInt16 n ∧ toInt16 n ≤ 32767 := by
  unfold toInt16; omega

theorem toInt16_id {n : ℤ} (h1 : -32768 ≤ n) (h2 : n ≤ 32767) : toInt16 n = n := by
  unfold toInt16; omega

theorem clamp1_mem (x : ℚ) : -1 ≤ clamp1 x ∧ clamp1 x ≤ 1 :=
  ⟨le_max_left _ _, max_le (by norm_num) (min_le_left _ _)⟩

theorem clamp1_of_mem {x : ℚ} (h1 : -1 ≤ x) (h2 : x ≤ 1) : clamp1 x = x := by
  unfold clamp1
  rw [min_eq_right h2, max_eq_right h1]

/-- The encoder truncates `clamp1 x * 32768` (negative) or `clamp1 x * 32767`
(non-negative) and the result already fits in an int16, so the `Int16Array`
store does not wrap. -/
theorem encodeSample_cases (x : ℚ) :
    (clamp1 x < 0 → encodeSample x = ratTrunc (clamp1 x * 32768)) ∧
    (0 ≤ clamp1 x → encodeSample x = ratTrunc (clamp1 x * 32767)) ∧
    -32768 ≤ encodeSample x ∧ encodeSample x ≤ 32767 := by
  obtain ⟨hl, hu⟩ := clamp1_mem x
  by_cases h : clamp1 x < 0
  · have hprod : clamp1 x * 32768 < 0 := mul_neg_of_neg_of_pos h (by norm_num)
    have htr : ratTrunc (clamp1 x * 32768) = ⌈clamp1 x * 32768⌉ := by
      unfold ratTrunc
      rw [if_neg (not_le.mpr hprod)]
    have hlow : (-32768 : ℤ) ≤ ⌈clamp1 x * 32768⌉ := by
      have h1 : (-32768 : ℚ) ≤ clamp1 x * 32768 := by nlinarith
      have h2 := Int.le_ceil (clamp1 x * 32768)
      exact_mod_cast h1.trans h2
    have hhigh : ⌈clamp1 x * 32768⌉ ≤ 0 :=
      Int.ceil_le.mpr (by exact_mod_cast hprod.le)
    have henc : encodeSample x = ratTrunc (clamp1 x * 32768) := by
      simp only [encodeSample]
      rw [if_pos h, htr, toInt16_id hlow (by omega)]
    refine ⟨fun _ => henc, fun h0 => absurd h0 (not_le.mpr h), ?_, ?_⟩
    · rw [henc, htr]; exact hlow
    · rw [henc, htr]; omega
  · have h0 : 0 ≤ clamp1 x := not_lt.mp h
    have hprod : 0 ≤ clamp1 x * 32767 := mul_nonneg h0 (by norm_num)
    have htr : ratTrunc (clamp1 x * 32767) = ⌊clamp1 x * 32767⌋ := by
      unfold ratTrunc
      rw [if_pos hprod]
    have hlow : (0 : ℤ) ≤ ⌊clamp1 x * 32767⌋ := Int.le_floor.mpr (by exact_mod_cast hprod)
    have hhigh : ⌊clamp1 x * 32767⌋ ≤ 32767 := by
      have h1 : clamp1 x * 32767 ≤ 32767 := by nlinarith
      have h2 := Int.floor_le_floor h1
      rwa [show ⌊(32767 : ℚ)⌋ = 32767 from by norm_num] at h2
    have henc : encodeSample x = ratTrunc (clamp1 x * 32767) := by
      simp only [encodeSample]
      rw [if_neg h, htr, toInt16_id (by omega) hhigh]
    refine ⟨fun hneg => absurd hneg h, fun _ => henc, ?_, ?_⟩
    · rw [henc, htr]; omega
    · rw [henc, htr]; exact hhigh

/-- Quantization error of one sample: strictly below two steps always, and
strictly below one step for negative samples. -/
theorem encodeSample_close (x : ℚ) :
    |(encodeSample x : ℚ) / 32768 - clamp1 x| < 2 / 32768 ∧
    (clamp1 x < 0 → |(encodeSample x : ℚ) / 32768 - clamp1 x| < 1 / 32768) := by
  obtain ⟨hl, hu⟩ := clamp1_mem x
  obtain ⟨hneg, hpos, _, _⟩ := encodeSample_cases x
  by_cases h : clamp1 x < 0
  · have hprod : clamp1 x * 32768 < 0 := mul_neg_of_neg_of_pos h (by norm_num)
    have htr : (encodeSample x : ℚ) = ⌈clamp1 x * 32768⌉ := by
      rw [hneg h]; unfold ratTrunc
      rw [if_neg (not_le.mpr hprod)]
    have h1 : clamp1 x * 32768 ≤ (⌈clamp1 x * 32768⌉ : ℚ) := Int.le_ceil _
    have h2 : (⌈clamp1 x * 32768⌉ : ℚ) < clamp1 x * 32768 + 1 := Int.ceil_lt_add_one _
    have hb : |(encodeSample x : ℚ) / 32768 - clamp1 x| < 1 / 32768 := by
      rw [htr, abs_sub_lt_iff]
      constructor <;> linarith
    exact ⟨hb.trans (by norm_num), fun _ => hb⟩
  · have h0 : 0 ≤ clamp1 x := not_lt.mp h
    have hprod : 0 ≤ clamp1 x * 32767 := mul_nonneg h0 (by norm_num)
    have htr : (encodeSample x : ℚ) = ⌊clamp1 x * 32767⌋ := by
      rw [hpos h0]; unfold ratTrunc
      rw [if_pos hprod]
    have h1 : (⌊clamp1 x * 32767⌋ : ℚ) ≤ clamp1 x * 32767 := Int.floor_le _
    have h2 : clamp1 x * 32767 < ⌊clamp1 x * 32767⌋ + 1 := Int.lt_floor_add_one _
    refine ⟨?_, fun hneg => absurd hneg h⟩
    rw [htr, abs_sub_lt_iff]
    constructor <;> linarith

theorem encodePcmBytes_lt : ∀ samples : List ℚ, ∀ b ∈ encodePcmBytes samples, b < 256
  | [], _, hb => by simp [encodePcmBytes] at hb
  | s :: rest, b, hb => by
    rw [encodePcmBytes] at hb
    rcases List.mem_append.mp hb with h | h
    · have hlt : ((encodeSample s) % 65536).toNat < 65536 := by omega
      rw [int16ToBytes] at h
      simp only [List.mem_cons, List.not_mem_nil, or_false] at h
      rcases h with h | h <;> omega
    · exact encodePcmBytes_lt rest b h

theorem decode_int16ToBytes (v : ℤ) (tail : List ℕ) (h1 : -32768 ≤ v) (h2 : v ≤ 32767) :
    bytesToSamples (int16ToBytes v ++ tail) = ((v : ℚ) / 32768) :: bytesToSamples tail := by
  simp only [int16ToBytes, List.cons_append, List.nil_append, bytesToSamples]
  have hh : toInt16 (((v % 65536).toNat / 256 : ℕ) * 256 +
      (((v % 65536).toNat % 256 : ℕ) : ℤ)) = v := by
    unfold toInt16
    omega
  rw [hh]
  rfl

theorem bytesToSamples_encodePcm : ∀ samples : List ℚ,
    bytesToSamples (encodePcmBytes samples) =
      samples.map (fun s => (encodeSample s : ℚ) / 32768)
  | [] => rfl
  | s :: rest => by
    obtain ⟨hlo, hhi⟩ := (encodeSample_cases s).2.2
    rw [encodePcmBytes, decode_int16ToBytes _ _ hlo hhi,
      bytesToSamples_encodePcm rest, List.map_cons]

theorem playPcmChunk_encodeFrame (samples : List ℚ) :
    playPcmChunk (encodeFrame samples) =
      some (samples.map fun s => (encodeSample s : ℚ) / 32768) := by
  show (decodeBase64Aux (encodeBase64Aux (encodePcmBytes samples))).map bytesToSamples = _
  rw [decode_encode _ (encodePcmBytes_lt samples), Option.map_some', bytesToSamples_encodePcm]

/-- C3 (amended): encoding a sample sequence through the capture path and
decoding it through the playback path reconstructs each sample's clamped
value to within two quantization steps (strictly below 2/32768); for
negative samples the error is strictly below one step (1/32768). The
non-negative side can exceed one step because encoding scales by 32767
while decoding divides by 32768. -/
theorem pcm_roundtrip_two_steps (samples : List ℚ) :
    playPcmChunk (encodeFrame samples) =
      some (samples.map fun s => (encodeSample s : ℚ) / 32768) ∧
    ∀ s ∈ samples,
      |(encodeSample s : ℚ) / 32768 - clamp1 s| < 2 / 32768 ∧
      (clamp1 s < 0 → |(encodeSample s : ℚ) / 32768 - clamp1 s| < 1 / 32768) ∧
      (-1 ≤ s → s ≤ 1 → |(encodeSample s : ℚ) / 32768 - s| < 2 / 32768) :=
  ⟨playPcmChunk_encodeFrame samples, fun s _ =>
    ⟨(encodeSample_close s).1, (encodeSample_close s).2,
     fun h1 h2 => by
       have h := (encodeSample_close s).1
       rwa [clamp1_of_mem h1 h2] at h⟩⟩

theorem pcm_roundtrip_two_steps_witness :
    playPcmChunk (encodeFrame [(-1 : ℚ) / 2]) =
      some ([(-1 : ℚ) / 2].map fun s => (encodeSample s : ℚ) / 32768) ∧
    |(encodeSample ((-1 : ℚ) / 2) : ℚ) / 32768 - clamp1 ((-1 : ℚ) / 2)| < 1 / 32768 ∧
    |(encodeSample ((-1 : ℚ) / 2) : ℚ) / 32768 - (-1 : ℚ) / 2| < 2 / 32768 :=
  ⟨(pcm_roundtrip_two_steps [(-1 : ℚ) / 2]).1,
   ((pcm_roundtrip_two_steps [(-1 : ℚ) / 2]).2 ((-1 : ℚ) / 2) (by simp)).2.1
     (by rw [clamp1_of_mem (by norm_num) (by norm_num)]; norm_num),
   ((pcm_roundtrip_two_steps [(-1 : ℚ) / 2]).2 ((-1 : ℚ) / 2) (by simp)).2.2
     (by norm_num) (by norm_num)⟩

/-- C3 counterexample: the sample 16777215/16777216 (the largest Float32
below 1, so the rational model matches the float evaluation exactly) lies in
[-1, 1] but is reconstructed as 32766/32768, an error of 1023/16777216,
strictly greater than one quantization step 1/32768 = 512/16777216. -/
theorem pcm_roundtrip_one_step_counterexample :
    -1 ≤ (16777215 : ℚ) / 16777216 ∧ (16777215 : ℚ) / 16777216 ≤ 1 ∧
    playPcmChunk (encodeFrame [(16777215 : ℚ) / 16777216]) =
      some [(32766 : ℚ) / 32768] ∧
    |(32766 : ℚ) / 32768 - (16777215 : ℚ) / 16777216| > 1 / 32768 := by
  have hclamp : clamp1 ((16777215 : ℚ) / 16777216) = (16777215 : ℚ) / 16777216 :=
    clamp1_of_mem (by norm_num) (by norm_num)
  have henc : encodeSample ((16777215 : ℚ) / 16777216) = 32766 := by
    simp only [encodeSample]
    rw [hclamp, if_neg (by norm_num), ratTrunc, if_pos (by norm_num)]
    rw [show ⌊(16777215 : ℚ) / 16777216 * 32767⌋ = 32766 from by
      rw [Int.floor_eq_iff]
      norm_num]
    decide
  refine ⟨by norm_num, by norm_num, ?_, by rw [abs_of_nonpos (by norm_num)]; norm_num⟩
  rw [playPcmChunk_encodeFrame, List.map_cons, List.map_nil, henc]
  norm_num

/-! ## Helper lemmas: lifecycle -/

theorem disconnectWebSocket_state (st : AppState) :
    (disconnectWebSocket st).1 =
      { st with
        isConnected := false
        audioLevel := 0
        whispers := []
        debugInfo := ⟨"Disconnected", ""⟩
        wsRef := none
        captureProcessor := false
        captureStream := false
        captureContext := false } := by
  obtain ⟨f1, f2, f3, f4, f5, f6, f7, f8, f9, f10⟩ := st
  cases f6 <;> cases f7 <;> cases f8 <;> cases f9 <;> rfl

theorem onCloseEvent_state (code : ℕ) (st : AppState) :
    (onCloseEvent code st).1 =
      { st with
        debugInfo := ⟨"Disconnected (" ++ toString code ++ ")", st.debugInfo.lastMessage⟩
        isConnected := false
        captureProcessor := false
        captureStream := false
        captureContext := false } := by
  obtain ⟨f1, f2, f3, f4, f5, f6, f7, f8, f9, f10⟩ := st
  obtain ⟨d1, d2⟩ := f5
  cases f7 <;> cases f8 <;> cases f9 <;> rfl

/-! ## Claim C1 -/

/-- C1 counterexample: a socket-close event arriving while the volume level
is 50 and one text annotation is live leaves both in place (the `onclose`
handler, lines 98-103, only sets the status banner, clears `isConnected` and
stops capture) — the claim says every teardown path ends with
VolumeLevel = 0 and zero live TextAnnotations. -/
theorem teardown_close_counterexample :
    (onCloseEvent 1000
        { initialState with
            audioLevel := 50
            whispers := [⟨0, "hi", 0⟩]
            wsRef := some ReadyState.opened
            isConnected := true }).1.audioLevel ≠ 0 ∧
    (onCloseEvent 1000
        { initialState with
            audioLevel := 50
            whispers := [⟨0, "hi", 0⟩]
            wsRef := some ReadyState.opened
            isConnected := true }).1.whispers ≠ [] := by
  constructor
  · show (50 : ℚ) ≠ 0
    norm_num
  · show [(⟨0, "hi", 0⟩ : Whisper)] ≠ []
    simp

/-- C1 (amended): an explicit stop intent, in any phase, ends in
`Disconnected` with VolumeLevel 0, zero live TextAnnotations, no socket and
the capture pipeline stopped. A socket-close event, in any state, stops the
capture pipeline and enters `Disconnected`, but leaves VolumeLevel and the
live TextAnnotations unchanged (they are only cleared by a stop intent or
the start of the next session). -/
theorem teardown_amended (st : AppState) (code : ℕ) :
    (disconnectWebSocket st).1.isConnected = false ∧
    (disconnectWebSocket st).1.audioLevel = 0 ∧
    (disconnectWebSocket st).1.whispers = [] ∧
    (disconnectWebSocket st).1.debugInfo = ⟨"Disconnected", ""⟩ ∧
    (disconnectWebSocket st).1.wsRef = none ∧
    captureStopped (disconnectWebSocket st).1 ∧
    (onCloseEvent code st).1.isConnected = false ∧
    captureStopped (onCloseEvent code st).1 ∧
    (onCloseEvent code st).1.debugInfo.status = "Disconnected (" ++ toString code ++ ")" ∧
    (onCloseEvent code st).1.audioLevel = st.audioLevel ∧
    (onCloseEvent code st).1.whispers = st.whispers := by
  rw [disconnectWebSocket_state, onCloseEvent_state]
  exact ⟨rfl, rfl, rfl, rfl, rfl, ⟨rfl, rfl, rfl⟩, rfl, ⟨rfl, rfl, rfl⟩, rfl, rfl, rfl⟩

/-! ## Claim C2 -/

/-- C2: the capture encoder first clamps each sample to [-1, 1], then scales
a negative clamped value by 32768 and a non-negative one by 32767
(truncating toward zero, as the `Int16Array` store does); the clamped value
lies in [-1, 1] and the stored integer always fits a 16-bit signed integer
without wrapping. -/
theorem capture_encoder_scaling (x : ℚ) :
    (clamp1 x < 0 → encodeSample x = ratTrunc (clamp1 x * 32768)) ∧
    (0 ≤ clamp1 x → encodeSample x = ratTrunc (clamp1 x * 32767)) ∧
    -1 ≤ clamp1 x ∧ clamp1 x ≤ 1 ∧
    -32768 ≤ encodeSample x ∧ encodeSample x ≤ 32767 := by
  obtain ⟨h1, h2, h3, h4⟩ := encodeSample_cases x
  obtain ⟨h5, h6⟩ := clamp1_mem x
  exact ⟨h1, h2, h5, h6, h3, h4⟩

theorem capture_encoder_scaling_witness :
    encodeSample (-2 : ℚ) = ratTrunc (clamp1 (-2 : ℚ) * 32768) ∧
    encodeSample (2 : ℚ) = ratTrunc (clamp1 (2 : ℚ) * 32767) ∧
    -32768 ≤ encodeSample (-2 : ℚ) ∧ encodeSample (2 : ℚ) ≤ 32767 :=
  ⟨(capture_encoder_scaling (-2)).1
      (by rw [show clamp1 (-2 : ℚ) = -1 from by unfold clamp1; norm_num]; norm_num),
   (capture_encoder_scaling 2).2.1
      (by rw [show clamp1 (2 : ℚ) = 1 from by unfold clamp1; norm_num]; norm_num),
   (capture_encoder_scaling (-2)).2.2.2.2.1,
   (capture_encoder_scaling 2).2.2.2.2.2⟩

/-! ## Claim C7 -/

/-- C7: a capture callback that fires while the socket ref is null or not
OPEN sends nothing and leaves the session state exactly as it was — the
handler returns before touching anything, so nothing is buffered and the
block can never be sent later; indeed the handler never mutates session
state in any case. -/
theorem capture_drop_when_not_open (st : AppState) (samples : List ℚ)
    (h : st.wsRef ≠ some ReadyState.opened) :
    onAudioProcess st samples = (st, none) ∧
    ∀ (st' : AppState) (samples' : List ℚ), (onAudioProcess st' samples').1 = st' := by
  constructor
  · unfold onAudioProcess
    rw [if_neg h]
  · intro st' samples'
    unfold onAudioProcess
    split <;> rfl

theorem capture_drop_when_not_open_witness :
    onAudioProcess initialState [0] = (initialState, none) ∧
    (onAudioProcess initialState [0]).1 = initialState :=
  ⟨(capture_drop_when_not_open initialState [0] (by decide)).1,
   (capture_drop_when_not_open initialState [0] (by decide)).2 initialState [0]⟩

/-! ## Claim C8 -/

/-- C8: every capture-start failure — no capture API (`DeviceUnavailable`)
or refused microphone access (`PermissionDenied`) — is surfaced in the
debug panel, clears `isConnected`, and schedules exactly one stop intent
after the fixed 2000 ms delay; no capture retry is ever scheduled. -/
theorem capture_failure_aborts (env : CaptureEnv) (st : AppState)
    (h : env.hasGetUserMedia = false ∨ env.micGranted = false) :
    (startAudioCapture env st).2 = [(2000, Scheduled.stopIntent)] ∧
    (startAudioCapture env st).1.isConnected = false ∧
    Scheduled.retryCapture ∉ (startAudioCapture env st).2.map Prod.snd ∧
    ((startAudioCapture env st).1.debugInfo.lastMessage =
        "Mic Error: getUserMedia is not supported in this browser" ∨
     (startAudioCapture env st).1.debugInfo.lastMessage = "Mic Error: Permission denied") := by
  obtain ⟨e1, e2⟩ := env
  rcases h with h | h <;> subst h
  · refine ⟨rfl, rfl, ?_, Or.inl rfl⟩
    show Scheduled.retryCapture ∉ ([(2000, Scheduled.stopIntent)] : List (ℕ × Scheduled)).map Prod.snd
    decide
  · cases e1
    · refine ⟨rfl, rfl, ?_, Or.inl rfl⟩
      show Scheduled.retryCapture ∉ ([(2000, Scheduled.stopIntent)] : List (ℕ × Scheduled)).map Prod.snd
      decide
    · refine ⟨rfl, rfl, ?_, Or.inr rfl⟩
      show Scheduled.retryCapture ∉ ([(2000, Scheduled.stopIntent)] : List (ℕ × Scheduled)).map Prod.snd
      decide

theorem capture_failure_aborts_witness :
    (startAudioCapture ⟨false, false⟩ initialState).2 = [(2000, Scheduled.stopIntent)] ∧
    (startAudioCapture ⟨false, false⟩ initialState).1.isConnected = false ∧
    Scheduled.retryCapture ∉ (startAudioCapture ⟨false, false⟩ initialState).2.map Prod.snd ∧
    ((startAudioCapture ⟨false, false⟩ initialState).1.debugInfo.lastMessage =
        "Mic Error: getUserMedia is not supported in this browser" ∨
     (startAudioCapture ⟨false, false⟩ initialState).1.debugInfo.lastMessage =
        "Mic Error: Permission denied") :=
  capture_failure_aborts ⟨false, false⟩ initialState (Or.inl rfl)

/-! ## Claim C9 -/

/-- C9: stop is idempotent — a second stop intent right after a first one
changes nothing and performs no further teardown effects (no socket close,
no track stop, no device release), and `stopAudioCapture` on a session whose
capture was never started releases nothing and returns the state
unchanged. -/
theorem stop_idempotent (st : AppState) :
    (disconnectWebSocket (disconnectWebSocket st).1).1 = (disconnectWebSocket st).1 ∧
    (disconnectWebSocket (disconnectWebSocket st).1).2 = [] ∧
    ∀ s : AppState, captureStopped s → stopAudioCapture s = (s, []) := by
  obtain ⟨f1, f2, f3, f4, f5, f6, f7, f8, f9, f10⟩ := st
  refine ⟨?_, ?_, ?_⟩
  · rw [disconnectWebSocket_state, disconnectWebSocket_state]
  · rw [show (disconnectWebSocket ⟨f1, f2, f3, f4, f5, f6, f7, f8, f9, f10⟩).1 =
        _ from disconnectWebSocket_state _]
    rfl
  · rintro ⟨g1, g2, g3, g4, g5, g6, g7, g8, g9, g10⟩ ⟨h7, h8, h9⟩
    cases h7
    cases h8
    cases h9
    rfl

theorem stop_idempotent_witness :
    (disconnectWebSocket (disconnectWebSocket initialState).1).1 =
      (disconnectWebSocket initialState).1 ∧
    (disconnectWebSocket (disconnectWebSocket initialState).1).2 = [] ∧
    stopAudioCapture initialState = (initialState, []) :=
  ⟨(stop_idempotent initialState).1, (stop_idempotent initialState).2.1,
   (stop_idempotent initialState).2.2 initialState ⟨rfl, rfl, rfl⟩⟩

/-! ## Claim C4 -/

/-- C4: router dispatch — a typed whisper with a (truthy) text payload
creates exactly one whisper and plays nothing; a typed audio message with an
audio payload plays exactly that one payload and creates no whisper; an
untyped audio payload plays (legacy); an untyped text payload creates no
whisper (log-only legacy); and the volume branch is independent of all of
them. -/
theorem router_dispatch (raw : String) (now : ℕ) (st : AppState) (m : InboundMsg) :
    (m.type = some "whisper" → truthy m.text = true →
      (onMessage raw (some m) now st).created.length = 1 ∧
      (onMessage raw (some m) now st).played = []) ∧
    (m.type = some "audio" → truthy m.audio = true →
      (onMessage raw (some m) now st).played = [m.audio.getD ""] ∧
      (onMessage raw (some m) now st).created = []) ∧
    (m.type = none → truthy m.audio = true →
      (onMessage raw (some m) now st).played = [m.audio.getD ""]) ∧
    (m.type = none → truthy m.text = true →
      (onMessage raw (some m) now st).created = []) ∧
    (∀ v : ℚ, m.vol = some v → (onMessage raw (some m) now st).state.audioLevel = v) := by
  obtain ⟨mv, mt, mx, ma⟩ := m
  refine ⟨?_, ?_, ?_, ?_, ?_⟩
  · rintro rfl h2
    simp only [truthy] at h2
    cases mv <;> simp +decide [onMessage, truthy, h2]
  · rintro rfl h2
    simp only [truthy] at h2
    cases mv <;> simp +decide [onMessage, truthy, h2]
  · rintro rfl h2
    simp only [truthy] at h2
    cases mv <;> simp +decide [onMessage, truthy, h2]
  · rintro rfl h2
    simp only [truthy] at h2
    cases mv <;> simp +decide [onMessage, truthy, h2]
  · rintro v rfl
    by_cases hw : (mt = some "whisper" ∧ truthy mx = true)
    · simp [onMessage, hw]
    · simp [onMessage, hw]

theorem router_dispatch_witness :
    (onMessage "r" (some ⟨some 42, some "whisper", some "hello", none⟩) 7
        initialState).created.length = 1 ∧
    (onMessage "r" (some ⟨some 42, some "whisper", some "hello", none⟩) 7
        initialState).played = [] ∧
    (onMessage "r" (some ⟨none, some "audio", none, some "QUJD"⟩) 7
        initialState).played = [(some "QUJD").getD ""] ∧
    (onMessage "r" (some ⟨none, some "audio", none, some "QUJD"⟩) 7
        initialState).created = [] ∧
    (onMessage "r" (some ⟨none, none, none, some "QUJD"⟩) 7
        initialState).played = [(some "QUJD").getD ""] ∧
    (onMessage "r" (some ⟨none, none, some "hi", none⟩) 7
        initialState).created = [] ∧
    (onMessage "r" (some ⟨some 42, some "whisper", some "hello", none⟩) 7
        initialState).state.audioLevel = 42 :=
  ⟨((router_dispatch "r" 7 initialState ⟨some 42, some "whisper", some "hello", none⟩).1
      rfl rfl).1,
   ((router_dispatch "r" 7 initialState ⟨some 42, some "whisper", some "hello", none⟩).1
      rfl rfl).2,
   ((router_dispatch "r" 7 initialState ⟨none, some "audio", none, some "QUJD"⟩).2.1
      rfl rfl).1,
   ((router_dispatch "r" 7 initialState ⟨none, some "audio", none, some "QUJD"⟩).2.1
      rfl rfl).2,
   (router_dispatch "r" 7 initialState ⟨none, none, none, some "QUJD"⟩).2.2.1 rfl rfl,
   (router_dispatch "r" 7 initialState ⟨none, none, some "hi", none⟩).2.2.2.1 rfl rfl,
   (router_dispatch "r" 7 initialState ⟨some 42, some "whisper", some "hello", none⟩).2.2.2.2
      42 rfl⟩

/-! ## Claim C5 -/

theorem decodeBase64Aux_mod_one :
    ∀ cs : List Char, cs.length % 4 = 1 → decodeBase64Aux cs = none
  | [], h => by simp at h
  | [_], _ => rfl
  | [_, _], h => by simp at h
  | [_, _, _], h => by simp at h
  | c1 :: c2 :: c3 :: c4 :: rest, h => by
    have hr : rest.length % 4 = 1 := by
      simp only [List.length_cons] at h
      omega
    have hne : rest ≠ [] := by
      intro he
      rw [he] at hr
      simp at hr
    rw [decodeBase64Aux, if_neg (by simpa [List.isEmpty_iff] using hne),
      decodeBase64Aux_mod_one rest hr]
    cases decodeGroup4 c1 c2 c3 c4 <;> rfl

theorem bytesToSamples_length : ∀ bs : List ℕ, (bytesToSamples bs).length = bs.length / 2
  | [] => rfl
  | [b] => by
    rw [show bytesToSamples [b] = [] from rfl]
    simp
  | _ :: _ :: rest => by
    rw [bytesToSamples, List.length_cons, bytesToSamples_length rest]
    simp only [List.length_cons]
    omega

/-- C5: a parse failure leaves everything but the diagnostic `lastMessage`
preview untouched and dispatches nothing; routing any parsed message never
touches the connection phase or the capture pipeline; a base64 payload whose
length is ≡ 1 (mod 4) — e.g. truncated — or one with a foreign character is
rejected by the decoder as a caught error (`none`), crashing nothing; and a
payload decoding to an odd byte count yields `⌊n/2⌋` samples, silently
dropping the trailing byte. -/
theorem malformed_input_resilient (raw : String) (now : ℕ) (st : AppState) (m : InboundMsg) :
    ((onMessage raw none now st).state =
      { st with debugInfo := { st.debugInfo with lastMessage := msgPreview raw } } ∧
     (onMessage raw none now st).played = [] ∧
     (onMessage raw none now st).created = [] ∧
     (onMessage raw none now st).timers = []) ∧
    ((onMessage raw (some m) now st).state.isConnected = st.isConnected ∧
     (onMessage raw (some m) now st).state.wsRef = st.wsRef ∧
     (onMessage raw (some m) now st).state.captureProcessor = st.captureProcessor ∧
     (onMessage raw (some m) now st).state.captureStream = st.captureStream ∧
     (onMessage raw (some m) now st).state.captureContext = st.captureContext) ∧
    (∀ s : String, s.length % 4 = 1 → decodeBase64 s = none) ∧
    playPcmChunk "!!!!" = none ∧
    (∀ bs : List ℕ, (bytesToSamples bs).length = bs.length / 2) := by
  refine ⟨⟨rfl, rfl, rfl, rfl⟩, ?_, ?_, rfl, bytesToSamples_length⟩
  · obtain ⟨mv, mt, mx, ma⟩ := m
    by_cases hw : (mt = some "whisper" ∧ truthy mx = true)
    · cases mv <;> simp [onMessage, hw]
    · cases mv <;> simp [onMessage, hw]
  · intro s hs
    exact decodeBase64Aux_mod_one s.data hs

theorem malformed_input_resilient_witness :
    (onMessage "oops" none 0 initialState).state =
      { initialState with
          debugInfo := { initialState.debugInfo with lastMessage := msgPreview "oops" } } ∧
    (onMessage "oops" (some ⟨none, none, none, none⟩) 0 initialState).state.isConnected =
      initialState.isConnected ∧
    decodeBase64 "AAAAA" = none ∧
    playPcmChunk "!!!!" = none ∧
    (bytesToSamples [1, 2, 3]).length = [1, 2, 3].length / 2 :=
  ⟨(malformed_input_resilient "oops" 0 initialState ⟨none, none, none, none⟩).1.1,
   (malformed_input_resilient "oops" 0 initialState ⟨none, none, none, none⟩).2.1.1,
   (malformed_input_resilient "oops" 0 initialState ⟨none, none, none, none⟩).2.2.1
     "AAAAA" rfl,
   (malformed_input_resilient "oops" 0 initialState ⟨none, none, none, none⟩).2.2.2.1,
   (malformed_input_resilient "oops" 0 initialState ⟨none, none, none, none⟩).2.2.2.2
     [1, 2, 3]⟩

/-! ## Claim C6: helper lemmas for the timer semantics -/

theorem presentB_append (i : ℕ) (ws : List Whisper) (w : Whisper) :
    presentB i (ws ++ [w]) = (presentB i ws || (w.id == i)) := by
  simp [presentB]

theorem presentB_filter (i j : ℕ) : ∀ ws : List Whisper,
    presentB i (ws.filter (fun w => w.id != j)) = (presentB i ws && !(j == i))
  | [] => by simp [presentB]
  | a :: tl => by
    have ih := presentB_filter i j tl
    simp only [presentB] at ih ⊢
    rw [List.filter_cons]
    by_cases h1 : a.id = j
    · rw [if_neg (by simp [h1]), ih, List.any_cons]
      subst h1
      by_cases h2 : a.id = i
      · rw [h2]
        simp
      · have hb : (a.id == i) = false := by simp [h2]
        simp [hb]
    · rw [if_pos (by simp [h1]), List.any_cons, ih, List.any_cons]
      by_cases h2 : j = i
      · subst h2
        have hb : (a.id == j) = false := by simp [h1]
        simp [hb]
      · have hji : (j == i) = false := by simp [h2]
        simp [hji]

theorem liveAfter_create (i : ℕ) (b : Bool) (t : ℕ) (w : Whisper)
    (rest : List (ℕ × WsEvent)) :
    liveAfter i b ((t, WsEvent.create w) :: rest) = liveAfter i (b || (w.id == i)) rest := rfl

theorem liveAfter_expire (i : ℕ) (b : Bool) (t j : ℕ) (rest : List (ℕ × WsEvent)) :
    liveAfter i b ((t, WsEvent.expire j) :: rest) = liveAfter i (b && !(j == i)) rest := rfl

theorem presentB_runFrom (i : ℕ) : ∀ (evs : List (ℕ × WsEvent)) (ws : List Whisper),
    presentB i (runFrom ws evs) = liveAfter i (presentB i ws) evs
  | [], ws => rfl
  | (t, WsEvent.create w) :: rest, ws => by
    rw [show runFrom ws ((t, WsEvent.create w) :: rest) = runFrom (ws ++ [w]) rest from rfl,
      presentB_runFrom i rest (ws ++ [w]), presentB_append]
    rfl
  | (t, WsEvent.expire j) :: rest, ws => by
    rw [show runFrom ws ((t, WsEvent.expire j) :: rest) =
        runFrom (ws.filter (fun w => w.id != j)) rest from rfl,
      presentB_runFrom i rest _, presentB_filter]
    rfl

theorem liveAfter_append (i : ℕ) : ∀ (xs ys : List (ℕ × WsEvent)) (b : Bool),
    liveAfter i b (xs ++ ys) = liveAfter i (liveAfter i b xs) ys
  | [], ys, b => rfl
  | (t, WsEvent.create w) :: rest, ys, b => by
    rw [List.cons_append, liveAfter_create, liveAfter_create, liveAfter_append i rest ys]
  | (t, WsEvent.expire j) :: rest, ys, b => by
    rw [List.cons_append, liveAfter_expire, liveAfter_expire, liveAfter_append i rest ys]

theorem liveAfter_untouched (i : ℕ) : ∀ (l : List (ℕ × WsEvent)),
    (∀ e ∈ l, touches i e.2 = false) → ∀ b : Bool, liveAfter i b l = b
  | [], _, b => rfl
  | (t, WsEvent.create w) :: rest, h, b => by
    have hw : (w.id == i) = false := h (t, WsEvent.create w) (by simp)
    rw [liveAfter_create, hw, Bool.or_false,
      liveAfter_untouched i rest (fun e he => h e (by simp [he]))]
  | (t, WsEvent.expire j) :: rest, h, b => by
    have hj : (j == i) = false := h (t, WsEvent.expire j) (by simp)
    rw [liveAfter_expire, hj,
      liveAfter_untouched i rest (fun e he => h e (by simp [he]))]
    simp

theorem liveAfter_through (i : ℕ) (l : List (ℕ × WsEvent)) (t : ℕ)
    (h : ∀ e ∈ l, touches i e.2 = false) (b : Bool) :
    liveAfter i b (l.filter (fun e => e.1 ≤ t)) = b :=
  liveAfter_untouched i _ (fun e he => h e (List.mem_of_mem_filter he)) b

/-- C6: with the schedule the router sets up — the annotation `w` created at
time `T`, its single expiry timer firing at `T + 10000`, and arbitrary
surrounding events none of which concerns `w.id` — the annotation is in the
live list for a query at time `t` exactly when `T ≤ t < T + 10000`; and a
firing timer removes exactly the annotations with its id, keeping every
other annotation. -/
theorem whisper_expiry (l1 l2 l3 : List (ℕ × WsEvent)) (w : Whisper) (T t : ℕ)
    (h1 : ∀ e ∈ l1, touches w.id e.2 = false)
    (h2 : ∀ e ∈ l2, touches w.id e.2 = false)
    (h3 : ∀ e ∈ l3, touches w.id e.2 = false) :
    (presentB w.id (liveList
        (l1 ++ (T, WsEvent.create w) :: l2 ++ (T + 10000, WsEvent.expire w.id) :: l3) t) =
          true ↔
      T ≤ t ∧ t < T + 10000) ∧
    (∀ (j : ℕ) (ws : List Whisper) (w' : Whisper),
      w' ∈ stepWhispers (WsEvent.expire j) ws ↔ w' ∈ ws ∧ w'.id ≠ j) := by
  constructor
  · have key : presentB w.id (liveList
        (l1 ++ (T, WsEvent.create w) :: l2 ++ (T + 10000, WsEvent.expire w.id) :: l3) t) =
          (decide (T ≤ t) && !decide (T + 10000 ≤ t)) := by
      simp only [liveList]
      rw [presentB_runFrom, show presentB w.id ([] : List Whisper) = false from rfl]
      by_cases hT : T ≤ t <;> by_cases hE : T + 10000 ≤ t <;>
        simp [List.filter_append, List.filter_cons, hT, hE, liveAfter_append,
          liveAfter_create, liveAfter_expire, liveAfter_through w.id l1 t h1,
          liveAfter_through w.id l2 t h2, liveAfter_through w.id l3 t h3]
    rw [key]
    constructor
    · intro hb
      simp only [Bool.and_eq_true, decide_eq_true_eq, Bool.not_eq_true',
        decide_eq_false_iff_not] at hb
      omega
    · intro hb
      simp only [Bool.and_eq_true, decide_eq_true_eq, Bool.not_eq_true',
        decide_eq_false_iff_not]
      omega
  · intro j ws w'
    simp [stepWhispers, List.mem_filter, bne_iff_ne]

theorem whisper_expiry_witness :
    (presentB 0 (liveList [(5, WsEvent.create ⟨0, "hi", 5⟩), (10005, WsEvent.expire 0)] 6) =
        true ↔
      5 ≤ 6 ∧ 6 < 5 + 10000) ∧
    ((⟨1, "a", 0⟩ : Whisper) ∈ stepWhispers (WsEvent.expire 0) [⟨1, "a", 0⟩] ↔
      (⟨1, "a", 0⟩ : Whisper) ∈ [(⟨1, "a", 0⟩ : Whisper)] ∧ (1 : ℕ) ≠ 0) :=
  ⟨(whisper_expiry [] [] [] ⟨0, "hi", 5⟩ 5 6 (by simp) (by simp) (by simp)).1,
   (whisper_expiry [] [] [] ⟨0, "hi", 5⟩ 5 6 (by simp) (by simp) (by simp)).2
      0 [⟨1, "a", 0⟩] ⟨1, "a", 0⟩⟩

/-! ## Claim C10: the whisper id allocator -/

theorem connectWebSocket_counter (st : AppState) :
    (connectWebSocket st).whisperIdCounter = st.whisperIdCounter ∧
    (connectWebSocket st).whispers = [] := ⟨rfl, rfl⟩

theorem stepPage_counter (st : AppState) (op : PageOp) :
    ((stepPage st op).2 = [] ∧
      (stepPage st op).1.whisperIdCounter = st.whisperIdCounter) ∨
    ((stepPage st op).2 = [st.whisperIdCounter] ∧
      (stepPage st op).1.whisperIdCounter = st.whisperIdCounter + 1) := by
  cases op with
  | startIntent => exact Or.inl ⟨rfl, rfl⟩
  | stopIntent =>
    refine Or.inl ⟨rfl, ?_⟩
    show (disconnectWebSocket st).1.whisperIdCounter = st.whisperIdCounter
    rw [disconnectWebSocket_state]
  | socketClose c =>
    refine Or.inl ⟨rfl, ?_⟩
    show (onCloseEvent c st).1.whisperIdCounter = st.whisperIdCounter
    rw [onCloseEvent_state]
  | message raw p now =>
    cases p with
    | none => exact Or.inl ⟨rfl, rfl⟩
    | some data =>
      obtain ⟨mv, mt, mx, ma⟩ := data
      by_cases hw : (mt = some "whisper" ∧ truthy mx = true)
      · refine Or.inr ?_
        cases mv <;> simp [stepPage, onMessage, hw]
      · refine Or.inl ?_
        cases mv <;> simp [stepPage, onMessage, hw]

theorem runPage_ids (st : AppState) : ∀ ops : List PageOp,
    (runPage st ops).2 =
      List.range' st.whisperIdCounter (runPage st ops).2.length ∧
    (runPage st ops).1.whisperIdCounter =
      st.whisperIdCounter + (runPage st ops).2.length
  | [] => by simp [runPage]
  | op :: ops => by
    obtain ⟨ih1, ih2⟩ := runPage_ids (stepPage st op).1 ops
    rcases stepPage_counter st op with ⟨he, hc⟩ | ⟨he, hc⟩ <;>
      rw [show runPage st (op :: ops) =
          ((runPage (stepPage st op).1 ops).1,
            (stepPage st op).2 ++ (runPage (stepPage st op).1 ops).2) from rfl]
    · rw [hc] at ih1 ih2
      rw [he]
      simp only [List.nil_append]
      exact ⟨ih1, ih2⟩
    · rw [he]
      rw [hc] at ih1 ih2
      constructor
      · rw [List.singleton_append, List.length_cons, List.range'_succ, ← ih1]
      · rw [List.singleton_append, List.length_cons, ih2]
        omega

/-- C10: the whisper id allocator increments by exactly one per annotation
created, is never reset — not by an explicit stop, not by a socket close,
and not by starting a new session (which clears the whisper list but not
the counter) — so over any page-lifetime trace of operations the created
ids form the contiguous strictly increasing range starting at the initial
counter value, unique across all sessions of the page. -/
theorem whisper_id_allocator (st : AppState) (ops : List PageOp) (code : ℕ) :
    (connectWebSocket st).whisperIdCounter = st.whisperIdCounter ∧
    (connectWebSocket st).whispers = [] ∧
    (disconnectWebSocket st).1.whisperIdCounter = st.whisperIdCounter ∧
    (onCloseEvent code st).1.whisperIdCounter = st.whisperIdCounter ∧
    (runPage st ops).2 =
      List.range' st.whisperIdCounter (runPage st ops).2.length ∧
    (runPage st ops).1.whisperIdCounter =
      st.whisperIdCounter + (runPage st ops).2.length ∧
    List.Pairwise (· < ·) (runPage st ops).2 := by
  obtain ⟨hr1, hr2⟩ := runPage_ids st ops
  refine ⟨rfl, rfl, ?_, ?_, hr1, hr2, ?_⟩
  · rw [disconnectWebSocket_state]
  · rw [onCloseEvent_state]
  · rw [hr1]
    exact List.pairwise_lt_range' _ _
